import Mathlib

/-
Verification of the sharding-router core of go-distributed-object-storage.

The Go source (internal/storage/storage.go, cmd/main.go) is shallowly
embedded: machine state (the Minio bucket contents, the router's adapter
registry and hash ring) is passed explicitly, fallible Go functions return
`Except String` or an explicit outcome type, and a Go nil-pointer
dereference / log.Fatalf is modelled as a distinct `panicked` / `fatal`
outcome constructor.
-/

namespace DistStorage

/-- `Object` from storage.go: id, content type and byte content
(bytes modelled as `List Nat`). -/
structure Object where
  id : String
  contentType : String
  content : List Nat
  deriving Repr, DecidableEq

/-- `Node` from storage.go: one discovered backend instance. -/
structure Node where
  id : String
  name : String
  endpoint : String
  accessKey : String
  secretKey : String
  deriving Repr, DecidableEq

/-- `Node.String()`: the member token `id#name`. -/
def Node.toStr (n : Node) : String :=
  n.id ++ "#" ++ n.name

/-- `maskSecret` from storage.go: `strings.Repeat("X", len(secret))`. -/
def maskSecret (secret : String) : String :=
  String.mk (List.replicate secret.length 'X')

/-- `Node.Debug()`: `id#name#endpoint#accessKey#` followed by the masked
secret key. -/
def Node.debug (n : Node) : String :=
  n.id ++ "#" ++ n.name ++ "#" ++ n.endpoint ++ "#" ++ n.accessKey ++ "#" ++
    maskSecret n.secretKey

/-- `needle` is a leading segment of `hay` (character lists). -/
def leadsWith : List Char → List Char → Bool
  | [], _ => true
  | _ :: _, [] => false
  | a :: ns, b :: hs => a == b && leadsWith ns hs

/-- `needle` occurs contiguously somewhere in `hay` (character lists). -/
def charsContains (needle : List Char) : List Char → Bool
  | [] => leadsWith needle []
  | c :: hs => leadsWith needle (c :: hs) || charsContains needle hs

/-- Go's `strings.Contains`: `sub` occurs as a substring of `s`. -/
def stringContains (s sub : String) : Bool :=
  charsContains sub.data s.data

/-- Constant `MinioKeyNotExistErrString` from minio.go. -/
def MinioKeyNotExistErrString : String := "The specified key does not exist."

/-- Constant `ContainerNamePattern` from storage.go. -/
def ContainerNamePattern : String := "amazin-object-storage-node-"

/-- The contents of one backend bucket: an association list
id ↦ (contentType, content), most recent write first (Go map/PutObject
overwrite semantics are observed through first-match lookup). -/
def Bucket := List (String × String × List Nat)

instance : DecidableEq Bucket := by
  unfold Bucket; infer_instance

instance : Repr Bucket := by
  unfold Bucket; infer_instance

/-- First-match association-list lookup (Go map read / newest object wins). -/
def lookupA {α : Type} : List (String × α) → String → Option α
  | [], _ => none
  | (k, v) :: rest, key => if k = key then some v else lookupA rest key

/-- The state of one `MinioStorage` adapter: its endpoint string and the
bucket contents behind it. -/
structure MinioState where
  endpoint : String
  bucket : Bucket
  deriving Repr, DecidableEq

/-- `keyDoesNotExist` from minio.go: substring test of the error text. -/
def keyDoesNotExist (errText : String) : Bool :=
  stringContains errText MinioKeyNotExistErrString

/-- `MinioStorage.handleKeyDoesNotExistError`: a backend error whose text
contains the magic string becomes the (nil, nil) not-found result; any
other error is wrapped with endpoint and id. -/
def handleKeyDoesNotExistError (endpoint errText pre id : String) :
    Except String (Option Object) :=
  if keyDoesNotExist errText then .ok none
  else .error (pre ++ " (" ++ endpoint ++ " | " ++ id ++ "): " ++ errText)

/-- The behaviour of the minio client during one `MinioStorage.Get`:
which of the three client calls (GetObject, Stat, ReadAll) fail and with
what error text, and otherwise the stat/body data returned. -/
structure MinioClientGet where
  getObjectErr : Option String
  statErr : Option String
  readErr : Option String
  contentType : String
  body : List Nat
  deriving Repr, DecidableEq

/-- `MinioStorage.Get` from minio.go, over an explicit client behaviour:
GetObject, then Stat, then ReadAll, with the two former errors routed
through `handleKeyDoesNotExistError` and the latter wrapped directly. -/
def minioGet (endpoint : String) (c : MinioClientGet) (id : String) :
    Except String (Option Object) :=
  match c.getObjectErr with
  | some e => handleKeyDoesNotExistError endpoint e "error get object" id
  | none =>
    match c.statErr with
    | some e =>
      handleKeyDoesNotExistError endpoint e "error get object: unable to read stat" id
    | none =>
      match c.readErr with
      | some e =>
        .error ("error get object (" ++ endpoint ++ " | " ++ id ++
          "): unable to read body: " ++ e)
      | none => .ok (some { id := id, contentType := c.contentType, content := c.body })

/-- The minio client behaviour produced by a reachable backend whose bucket
is `b`, queried for `id`: GetObject itself is lazy and succeeds, and when no
object is stored under `id` the subsequent `Stat` call fails with the
"The specified key does not exist." error text. -/
def bucketClientGet (b : Bucket) (id : String) : MinioClientGet :=
  match lookupA b id with
  | none =>
    { getObjectErr := none, statErr := some MinioKeyNotExistErrString,
      readErr := none, contentType := "", body := [] }
  | some (ct, body) =>
    { getObjectErr := none, statErr := none, readErr := none,
      contentType := ct, body := body }

/-- `MinioStorage.Get` against a reachable backend holding bucket `b`. -/
def minioGetKV (endpoint : String) (b : Bucket) (id : String) :
    Except String (Option Object) :=
  minioGet endpoint (bucketClientGet b id) id

/-- Outcome of one `MinioStorage.Put`: success with the new bucket state,
an error, or a Go runtime panic. -/
inductive PutOutcome where
  | ok : Bucket → PutOutcome
  | err : String → PutOutcome
  | panicked : PutOutcome
  deriving Repr, DecidableEq

/-- `MinioStorage.Put` from minio.go against a reachable backend. The method
performs NO validation of its argument: with a nil object pointer the field
access `object.ID` is a nil-pointer dereference (Go panic); otherwise the
client call `PutObject` is modelled as an overwriting write of content and
content type under the object's id. -/
def minioPut (b : Bucket) (obj : Option Object) : PutOutcome :=
  match obj with
  | none => .panicked
  | some o => .ok ((o.id, o.contentType, o.content) :: b)

/-- A deterministic stand-in for `xxhash.Sum64` (64-bit fold over the
key's characters). The claims under verification depend only on the hash
being a fixed function of the key. -/
def strHash (s : String) : Nat :=
  s.data.foldl (fun h c => (h * 131 + c.toNat) % (2 ^ 64)) 7

/-- Model of the consistent-hashing library's `LocateKey`: a deterministic
choice of one member of the ring, as a pure function of the key and the
member list; on an EMPTY ring the library returns a nil `Member`
(modelled as `none`) — `LocateKey` has no error return. -/
def locateKey (members : List Node) (key : String) : Option Node :=
  if h : members.length = 0 then none
  else some (members.get ⟨strHash key % members.length, Nat.mod_lt _ (Nat.pos_of_ne_zero h)⟩)

/-- The `DistributedStorage` router state: `circleMembers = none` models a
nil `circle` pointer (hash ring never built); the adapter registry
`availableStorages` maps member tokens to adapter states. -/
structure DistributedStorage where
  circleMembers : Option (List Node)
  availableStorages : List (String × MinioState)
  deriving Repr, DecidableEq

/-- Outcome of `DistributedStorage.Put`. -/
inductive RPutOutcome where
  | ok : DistributedStorage → RPutOutcome
  | err : String → RPutOutcome
  | panicked : RPutOutcome
  deriving Repr, DecidableEq

/-- Outcome of `DistributedStorage.Get`. -/
inductive RGetOutcome where
  | ok : Option Object → RGetOutcome
  | err : String → RGetOutcome
  | panicked : RGetOutcome
  deriving Repr, DecidableEq

/-- `DistributedStorage.Put` from storage.go: reject a nil object or empty
id; locate the member for the id on the ring (a nil circle, or the nil
member returned on an empty ring, makes the Go code panic at
`.String()`); resolve the adapter in the registry, failing with the
"storage node not available" error on a miss; forward to the adapter's
`Put`, wrapping its error with the member token. -/
def DistributedStorage.put (s : DistributedStorage) (obj : Option Object) :
    RPutOutcome :=
  match obj with
  | none => .err "object is empty"
  | some o =>
    if o.id = "" then .err "object is empty"
    else
      match s.circleMembers with
      | none => .panicked
      | some members =>
        match locateKey members o.id with
        | none => .panicked
        | some m =>
          let key := m.toStr
          match lookupA s.availableStorages key with
          | none => .err ("failed to push data: storage node not available (" ++ key ++ ")")
          | some ms =>
            match minioPut ms.bucket (some o) with
            | .ok b2 =>
              .ok { s with availableStorages :=
                      (key, { ms with bucket := b2 }) :: s.availableStorages }
            | .err e => .err ("failed to put data using node (" ++ key ++ "): " ++ e)
            | .panicked => .panicked

/-- `DistributedStorage.Get` from storage.go: locate the member for the id
(nil circle or nil member panics), resolve the adapter, forward to the
adapter's `Get`, wrapping an error with the member token and otherwise
returning the adapter's result — including the (nil, nil) not-found
outcome — unchanged. -/
def DistributedStorage.get (s : DistributedStorage) (id : String) :
    RGetOutcome :=
  match s.circleMembers with
  | none => .panicked
  | some members =>
    match locateKey members id with
    | none => .panicked
    | some m =>
      let key := m.toStr
      match lookupA s.availableStorages key with
      | none => .err ("failed to get data: storage node not available (" ++ key ++ ")")
      | some ms =>
        match minioGetKV ms.endpoint ms.bucket id with
        | .error e => .err ("failed to get data using node (" ++ key ++ "): " ++ e)
        | .ok obj => .ok obj

/-- The environment one node's adapter initialization runs against:
whether `NewMinioStorage` fails, whether the subsequent `MinioStorage.Init`
fails (only consulted when construction succeeded), and the pre-existing
bucket contents on that backend. -/
structure NodeInitBehavior where
  newErr : Option String
  initErr : Option String
  bucket : Bucket
  deriving Repr, DecidableEq

/-- `DistributedStorage.initStorageNode` from storage.go: construct the
Minio adapter and run its `Init`, wrapping either failure with
`node.Debug()`. -/
def initStorageNode (env : Node → NodeInitBehavior) (node : Node) :
    Except String MinioState :=
  match (env node).newErr with
  | some e => .error ("create Minio storage for node " ++ node.debug ++ ": " ++ e)
  | none =>
    match (env node).initErr with
    | some e => .error ("initialize storage for node " ++ node.debug ++ ": " ++ e)
    | none => .ok { endpoint := node.endpoint, bucket := (env node).bucket }

/-- `DistributedStorage.initStorages` from storage.go: initialize every
node's adapter in order, aborting with the first failure, and build the
token ↦ adapter registry. -/
def initStorages (env : Node → NodeInitBehavior) :
    List Node → Except String (List (String × MinioState))
  | [] => .ok []
  | node :: rest =>
    match initStorageNode env node with
    | .error e => .error e
    | .ok ms =>
      match initStorages env rest with
      | .error e => .error e
      | .ok r => .ok ((node.toStr, ms) :: r)

/-- `DistributedStorage.Init` from storage.go: node discovery (its failure
wrapped as "retrieve storage nodes"), then `initStorages`, then
`initHashCircle` — the ring (`circleMembers`) is built, over exactly the
discovered nodes, only after every adapter initialized. -/
def DistributedStorage.initRouter (env : Node → NodeInitBehavior)
    (discovery : Except String (List Node)) : Except String DistributedStorage :=
  match discovery with
  | .error e => .error ("retrieve storage nodes: " ++ e)
  | .ok nodes =>
    match initStorages env nodes with
    | .error e => .error e
    | .ok reg => .ok { circleMembers := some nodes, availableStorages := reg }

/-- One entry of the container runtime's listing: container id, names, and
the IP addresses of its networks (`none` models a nil NetworkSettings). -/
structure ContainerInfo where
  id : String
  names : List String
  networkSettings : Option (List String)
  deriving Repr, DecidableEq

/-- Outcome of `getAvailableStorageNodes`: a node list, an error return, or
process termination through `log.Fatalf`. -/
inductive DiscoveryOutcome where
  | ok : List Node → DiscoveryOutcome
  | err : String → DiscoveryOutcome
  | fatal : DiscoveryOutcome
  deriving Repr, DecidableEq

/-- Constant `MinioAccessKeyEnv` from storage.go. -/
def MinioAccessKeyEnv : String := "MINIO_ACCESS_KEY"

/-- Constant `MinioSecretKeyEnv` from storage.go. -/
def MinioSecretKeyEnv : String := "MINIO_SECRET_KEY"

/-- Constant `MinioApiPort` from storage.go. -/
def MinioApiPort : Nat := 9000

/-- The env-var map built in `getAvailableStorageNodes`: each "K=V" entry
is split on "=", entries with at least two parts are recorded (later
entries overwrite earlier ones), and a missing key reads as "" (Go map
zero value). -/
def envLookup (envs : List String) (key : String) : String :=
  envs.foldl
    (fun acc e =>
      match e.splitOn "=" with
      | k :: v :: _ => if k = key then v else acc
      | _ => acc)
    ""

/-- The first non-empty network IP of a listing entry (the loop in the
source walks `NetworkSettings.Networks` and keeps the first entry with a
non-empty `IPAddress`). -/
def addrOf (c : ContainerInfo) : String :=
  ((c.networkSettings.getD []).find? (fun ip => ip != "")).getD ""

/-- The `Node` the discovery loop records for a candidate that passed all
checks, given the env entries read from the container's configuration. -/
def nodeOfEnvs (c : ContainerInfo) (envs : List String) : Node :=
  { id := c.id, name := c.names.headD "",
    endpoint := addrOf c ++ ":" ++ Nat.repr MinioApiPort,
    accessKey := envLookup envs MinioAccessKeyEnv,
    secretKey := envLookup envs MinioSecretKeyEnv }

/-- `DistributedStorage.getAvailableStorageNodes`, the per-container loop:
skip entries with an empty id or nil NetworkSettings; skip names not
containing `ContainerNamePattern`; take the first non-empty network IP —
if none, the source calls `log.Fatalf` (process termination; the
`continue` after it is unreachable); inspect the container for its env —
an inspect failure returns an error; otherwise record the node. -/
def processContainers (inspect : String → Except String (List String)) :
    List ContainerInfo → DiscoveryOutcome
  | [] => .ok []
  | c :: rest =>
    match c.networkSettings with
    | none => processContainers inspect rest
    | some _ =>
      if c.id = "" then processContainers inspect rest
      else
        let name := c.names.headD ""
        if stringContains name ContainerNamePattern = false then
          processContainers inspect rest
        else
          let addr := addrOf c
          if addr = "" then .fatal
          else
            match inspect c.id with
            | .error e => .err ("unable to inspect container " ++ c.id ++ ": " ++ e)
            | .ok envs =>
              match processContainers inspect rest with
              | .ok ns => .ok (nodeOfEnvs c envs :: ns)
              | other => other

/-- `DistributedStorage.getAvailableStorageNodes` from storage.go: a failed
listing query is wrapped as "unable to list containers"; otherwise the
containers are processed in order. -/
def getAvailableStorageNodes (inspect : String → Except String (List String))
    (listing : Except String (List ContainerInfo)) : DiscoveryOutcome :=
  match listing with
  | .error e => .err ("unable to list containers: " ++ e)
  | .ok cs => processContainers inspect cs

/-- Derived view: the filter the discovery loop applies before it commits
to a candidate — non-empty id, non-nil NetworkSettings, and a first name
containing `ContainerNamePattern`. -/
def relevantContainer (c : ContainerInfo) : Bool :=
  c.id != "" && c.networkSettings.isSome &&
    stringContains (c.names.headD "") ContainerNamePattern

/-- Derived view: the `Node` the discovery loop records for a candidate
that passed all checks. -/
def mkNode (inspect : String → Except String (List String))
    (c : ContainerInfo) : Node :=
  nodeOfEnvs c (match inspect c.id with | .ok es => es | .error _ => [])

/-- What `main` (cmd/main.go) did during startup: the error `Init`
produced, if any, and whether the gateway server was started. -/
structure StartupTrace where
  initError : Option String
  gatewayStarted : Bool
  deriving Repr, DecidableEq

/-- Model of `main` (cmd/main.go lines 26-37): the return value of
`storage.Init(ctx)` on line 28 is DISCARDED — no branch inspects it — and
the gateway server is constructed and started unconditionally on the
following lines. -/
def runMain (initResult : Except String DistributedStorage) : StartupTrace :=
  { initError := match initResult with | .ok _ => none | .error e => some e,
    gatewayStarted := true }

/-! Sample values used to instantiate the theorems below. -/

/-- Sample backend node. -/
def nodeA : Node :=
  { id := "node1", name := "1", endpoint := "1.1.1.1:9000",
    accessKey := "key", secretKey := "secret" }

/-- A router initialized over the single node `nodeA`, empty backend. -/
def routerA : DistributedStorage :=
  { circleMembers := some [nodeA],
    availableStorages := [(nodeA.toStr, { endpoint := nodeA.endpoint, bucket := [] })] }

/-- Sample object ("Hello" as bytes). -/
def objectA : Object :=
  { id := "object-1", contentType := "text/plain",
    content := [72, 101, 108, 108, 111] }

/-- The state of `routerA` after `Put(objectA)`. -/
def routerA2 : DistributedStorage :=
  { circleMembers := some [nodeA],
    availableStorages :=
      (nodeA.toStr,
        { endpoint := nodeA.endpoint,
          bucket := [("object-1", "text/plain", [72, 101, 108, 108, 111])] })
        :: routerA.availableStorages }

/-! Helper lemmas (shared). -/

/-- The magic not-found text recognizes itself. -/
theorem keyDoesNotExist_self : keyDoesNotExist MinioKeyNotExistErrString = true := by
  decide

/-- A member located on the ring is one of the ring's members. -/
theorem locateKey_mem (members : List Node) (key : String) (m : Node)
    (h : locateKey members key = some m) : m ∈ members := by
  unfold locateKey at h
  split at h
  · cases h
  · injection h with h'
    rw [← h']
    exact List.get_mem _ _ _

/-- `lookupA` succeeds exactly on the keys present in the list. -/
theorem lookupA_isSome_iff {α : Type} (l : List (String × α)) (k : String) :
    (lookupA l k).isSome = true ↔ k ∈ l.map Prod.fst := by
  induction l with
  | nil => simp [lookupA]
  | cons p rest ih =>
    obtain ⟨k0, v0⟩ := p
    by_cases hk : k0 = k
    · subst hk; simp [lookupA]
    · simp [lookupA, hk, ih, Ne.symm hk]

/-! ## C1 — round trip through the Router -/

/-- C1: for every object with a non-empty id, after a successful
`DistributedStorage.Put(object)`, a `DistributedStorage.Get(object.ID)` on
the resulting router returns exactly the stored object: identical id,
content type, and byte-for-byte content (both calls locate the same member
and the backend returns the stored value verbatim). -/
theorem router_round_trip (s s2 : DistributedStorage) (o : Object)
    (hid : o.id ≠ "") (hput : s.put (some o) = .ok s2) :
    s2.get o.id = .ok (some o) := by
  simp only [DistributedStorage.put, if_neg hid] at hput
  cases hc : s.circleMembers with
  | none => simp only [hc] at hput; cases hput
  | some members =>
    simp only [hc] at hput
    cases hl : locateKey members o.id with
    | none => simp only [hl] at hput; cases hput
    | some m =>
      simp only [hl] at hput
      cases hr : lookupA s.availableStorages m.toStr with
      | none => simp only [hr] at hput; cases hput
      | some ms =>
        simp only [hr, minioPut] at hput
        injection hput with hs2
        subst hs2
        simp only [DistributedStorage.get, hc, hl]
        simp [lookupA, minioGetKV, bucketClientGet, minioGet]

/-- C1 witness at concrete inputs. -/
theorem router_round_trip_witness :
    routerA.put (some objectA) = .ok routerA2 ∧
    routerA2.get objectA.id = .ok (some objectA) :=
  ⟨by decide,
   router_round_trip routerA routerA2 objectA (by decide) (by decide)⟩

/-! ## C2 — not-found is not an error -/

/-- C2: for an id under which no object exists on the located backend, the
Minio adapter's `Get` returns the empty result with no error
(`.ok none`, i.e. Go's (nil, nil)), and the Router's `Get` propagates that
empty-result-no-error outcome unchanged to its caller. -/
theorem get_not_found_no_error (s : DistributedStorage) (ms : MinioState)
    (id : String) (members : List Node) (m : Node)
    (hb : lookupA ms.bucket id = none)
    (hc : s.circleMembers = some members)
    (hl : locateKey members id = some m)
    (hr : lookupA s.availableStorages m.toStr = some ms) :
    minioGetKV ms.endpoint ms.bucket id = .ok none ∧
    s.get id = .ok none := by
  have hget : minioGetKV ms.endpoint ms.bucket id = .ok none := by
    simp [minioGetKV, bucketClientGet, hb, minioGet, handleKeyDoesNotExistError,
      keyDoesNotExist_self]
  refine ⟨hget, ?_⟩
  simp only [DistributedStorage.get, hc, hl, hr, hget]

/-- C2 witness: `Get "missing"` on `routerA` (whose backend is empty). -/
theorem get_not_found_no_error_witness :
    minioGetKV nodeA.endpoint [] "missing" = .ok none ∧
    routerA.get "missing" = .ok none :=
  get_not_found_no_error routerA
    { endpoint := nodeA.endpoint, bucket := [] } "missing" [nodeA] nodeA
    (by decide) (by decide) (by decide) (by decide)

/-! ## C9 — secret masking -/

/-- C9: `Node.Debug` masks the secret key — the diagnostic output depends
on the secret only through its length, so two nodes identical except for
equal-length secret keys produce identical diagnostic output (the secret
never appears in it unmasked). -/
theorem debug_masks_secret (n1 n2 : Node)
    (hid : n1.id = n2.id) (hname : n1.name = n2.name)
    (hend : n1.endpoint = n2.endpoint) (hacc : n1.accessKey = n2.accessKey)
    (hlen : n1.secretKey.length = n2.secretKey.length) :
    n1.debug = n2.debug := by
  simp [Node.debug, maskSecret, hid, hname, hend, hacc, hlen]

/-- C9 witness: two equal-length secrets, same diagnostic string. -/
theorem debug_masks_secret_witness :
    Node.debug { id := "node1", name := "1", endpoint := "1.1.1.1:9000",
                 accessKey := "key", secretKey := "hunter42" } =
    Node.debug { id := "node1", name := "1", endpoint := "1.1.1.1:9000",
                 accessKey := "key", secretKey := "p4ssw0rd" } :=
  debug_masks_secret _ _ rfl rfl rfl rfl (by decide)

/-! ## C10 — not-found decided by substring match on the error text -/

/-- C10: `MinioStorage.Get` classifies "not found" by substring-matching
the backend error text: whenever the error returned at object open
(GetObject) or at Stat contains "The specified key does not exist.", the
adapter returns `(nil, nil)` exactly as if the object were absent —
regardless of what the rest of the error says. -/
theorem minio_get_notfound_by_text (endpoint id e : String)
    (c : MinioClientGet)
    (h : stringContains e MinioKeyNotExistErrString = true) :
    minioGet endpoint { c with getObjectErr := some e } id = .ok none ∧
    minioGet endpoint { c with getObjectErr := none, statErr := some e } id = .ok none := by
  constructor <;>
    simp [minioGet, handleKeyDoesNotExistError, keyDoesNotExist, h]

/-- C10 witness: an I/O-looking error whose text happens to contain the
magic phrase is reported as object-not-present. -/
theorem minio_get_notfound_by_text_witness :
    minioGet "1.1.1.1:9000"
      { getObjectErr := some "read tcp: The specified key does not exist. (status 404)",
        statErr := none, readErr := none, contentType := "", body := [] }
      "object-1" = .ok none ∧
    minioGet "1.1.1.1:9000"
      { getObjectErr := none,
        statErr := some "read tcp: The specified key does not exist. (status 404)",
        readErr := none, contentType := "", body := [] }
      "object-1" = .ok none :=
  minio_get_notfound_by_text "1.1.1.1:9000" "object-1"
    "read tcp: The specified key does not exist. (status 404)"
    { getObjectErr := none, statErr := none, readErr := none,
      contentType := "", body := [] }
    (by decide)

/-! ## C3 — all-or-nothing Router initialization -/

/-- One node's adapter fails to construct or fails its `Init`. -/
def nodeInitFails (env : Node → NodeInitBehavior) (n : Node) : Prop :=
  ∃ e, initStorageNode env n = .error e

/-- An `initStorageNode` error message embeds the offending node's
diagnostic identity. -/
theorem initStorageNode_error_form (env : Node → NodeInitBehavior) (n : Node)
    (e : String) (h : initStorageNode env n = .error e) :
    ∃ a b, e = a ++ n.debug ++ b := by
  unfold initStorageNode at h
  cases hn : (env n).newErr with
  | some e0 =>
    simp only [hn] at h
    injection h with he
    exact ⟨"create Minio storage for node ", ": " ++ e0,
      by rw [← he, String.append_assoc]⟩
  | none =>
    simp only [hn] at h
    cases hi : (env n).initErr with
    | some e0 =>
      simp only [hi] at h
      injection h with he
      exact ⟨"initialize storage for node ", ": " ++ e0,
        by rw [← he, String.append_assoc]⟩
    | none => simp only [hi] at h; cases h

/-- `initStorages` aborts with an error naming a failing node whenever any
node in the list fails. -/
theorem initStorages_error_of_fails (env : Node → NodeInitBehavior)
    (nodes : List Node) (h : ∃ n ∈ nodes, nodeInitFails env n) :
    ∃ n ∈ nodes, nodeInitFails env n ∧ ∃ a b,
      initStorages env nodes = .error (a ++ n.debug ++ b) := by
  induction nodes with
  | nil => obtain ⟨n, hn, _⟩ := h; cases hn
  | cons n0 rest ih =>
    cases hfirst : initStorageNode env n0 with
    | error e =>
      obtain ⟨a, b, hab⟩ := initStorageNode_error_form env n0 e hfirst
      refine ⟨n0, List.mem_cons_self _ _, ⟨e, hfirst⟩, a, b, ?_⟩
      simp only [initStorages, hfirst, hab]
    | ok ms =>
      have hrest : ∃ n ∈ rest, nodeInitFails env n := by
        obtain ⟨n, hn, hf⟩ := h
        rcases List.mem_cons.mp hn with rfl | hmem
        · obtain ⟨e, he⟩ := hf
          rw [hfirst] at he
          cases he
        · exact ⟨n, hmem, hf⟩
      obtain ⟨n, hn, hf, a, b, hab⟩ := ih hrest
      refine ⟨n, List.mem_cons_of_mem _ hn, hf, a, b, ?_⟩
      simp only [initStorages, hfirst, hab]

/-- C3: if any discovered node's adapter fails to construct or fails its
`Init`, `DistributedStorage.Init` returns an error whose message embeds
the diagnostic identity of a node that itself failed initialization (it
identifies the offending node), and no initialized router state is
produced — in particular the hash ring is never built (all-or-nothing,
no partial Ready state). -/
theorem init_all_or_nothing (env : Node → NodeInitBehavior)
    (nodes : List Node) (h : ∃ n ∈ nodes, nodeInitFails env n) :
    (∀ s, DistributedStorage.initRouter env (.ok nodes) ≠ .ok s) ∧
    ∃ n ∈ nodes, nodeInitFails env n ∧ ∃ a b,
      DistributedStorage.initRouter env (.ok nodes) = .error (a ++ n.debug ++ b) := by
  obtain ⟨n, hn, hf, a, b, hab⟩ := initStorages_error_of_fails env nodes h
  have hinit : DistributedStorage.initRouter env (.ok nodes) =
      .error (a ++ n.debug ++ b) := by
    simp only [DistributedStorage.initRouter, hab]
  exact ⟨fun s hs => by simp [hinit] at hs, n, hn, hf, a, b, hinit⟩

/-- An environment in which every adapter's `Init` fails with a
connection error. -/
def envAllInitFail : Node → NodeInitBehavior :=
  fun _ => { newErr := none, initErr := some "connection refused", bucket := [] }

/-- C3 witness: a one-node discovery whose adapter fails `Init`. -/
theorem init_all_or_nothing_witness :
    (∀ s, DistributedStorage.initRouter envAllInitFail (.ok [nodeA]) ≠ .ok s) ∧
    ∃ n ∈ [nodeA], nodeInitFails envAllInitFail n ∧ ∃ a b,
      DistributedStorage.initRouter envAllInitFail (.ok [nodeA]) =
        .error (a ++ n.debug ++ b) :=
  init_all_or_nothing envAllInitFail [nodeA]
    ⟨nodeA, List.mem_cons_self _ _,
      ⟨"initialize storage for node " ++ nodeA.debug ++ ": " ++ "connection refused",
        rfl⟩⟩

/-! ## C7 — ring–registry correspondence after a successful Init -/

/-- The registry built by a successful `initStorages` has exactly the
nodes' member tokens as keys, in order. -/
theorem initStorages_keys (env : Node → NodeInitBehavior)
    (nodes : List Node) (reg : List (String × MinioState))
    (h : initStorages env nodes = .ok reg) :
    reg.map Prod.fst = nodes.map Node.toStr := by
  induction nodes generalizing reg with
  | nil =>
    simp only [initStorages] at h
    injection h with h'
    subst h'
    rfl
  | cons n0 rest ih =>
    simp only [initStorages] at h
    cases hfirst : initStorageNode env n0 with
    | error e => rw [hfirst] at h; cases h
    | ok ms =>
      rw [hfirst] at h
      cases hrest : initStorages env rest with
      | error e => rw [hrest] at h; cases h
      | ok r =>
        rw [hrest] at h
        injection h with h'
        subst h'
        simp [ih r hrest]

/-- C7: after every successful `DistributedStorage.Init`, the hash ring
holds exactly the discovered nodes, the set of member tokens on the ring
coincides with the set of keys of the adapter registry, and every ring
lookup resolves in the registry — the defensive "storage node not
available" (NodeUnavailable) branch of Put and Get is unreachable on an
initialized router. -/
theorem init_ring_registry_invariant (env : Node → NodeInitBehavior)
    (nodes : List Node) (s : DistributedStorage)
    (h : DistributedStorage.initRouter env (.ok nodes) = .ok s) :
    s.circleMembers = some nodes ∧
    (∀ t, (∃ n ∈ nodes, n.toStr = t) ↔ (lookupA s.availableStorages t).isSome = true) ∧
    (∀ id m, locateKey nodes id = some m →
      (lookupA s.availableStorages m.toStr).isSome = true) := by
  simp only [DistributedStorage.initRouter] at h
  cases hreg : initStorages env nodes with
  | error e => rw [hreg] at h; cases h
  | ok reg =>
    rw [hreg] at h
    injection h with h'
    subst h'
    have hkeys : reg.map Prod.fst = nodes.map Node.toStr :=
      initStorages_keys env nodes reg hreg
    have hmem : ∀ t, (∃ n ∈ nodes, n.toStr = t) ↔
        (lookupA reg t).isSome = true := by
      intro t
      rw [lookupA_isSome_iff, hkeys, List.mem_map]
    refine ⟨rfl, hmem, fun id m hloc => ?_⟩
    exact (hmem m.toStr).mp ⟨m, locateKey_mem nodes id m hloc, rfl⟩

/-- An environment in which every adapter initializes cleanly over an
empty backend. -/
def envAllOk : Node → NodeInitBehavior :=
  fun _ => { newErr := none, initErr := none, bucket := [] }

/-- C7 witness: a successful one-node Init, checked against `routerA`. -/
theorem init_ring_registry_invariant_witness :
    routerA.circleMembers = some [nodeA] ∧
    (∀ t, (∃ n ∈ [nodeA], n.toStr = t) ↔
      (lookupA routerA.availableStorages t).isSome = true) ∧
    (∀ id m, locateKey [nodeA] id = some m →
      (lookupA routerA.availableStorages m.toStr).isSome = true) :=
  init_ring_registry_invariant envAllOk [nodeA] routerA rfl

/-! ## C5 — behavior on an empty ring -/

/-- A router whose hash ring was built over an empty node set (the state
`Init` produces when discovery returns no nodes). -/
def emptyRouter : DistributedStorage :=
  { circleMembers := some [], availableStorages := [] }

/-- C5 counterexample: on an empty ring the Router's Put and Get do NOT
fail with a NoMembers error — they return no error at all. The library's
`LocateKey` hands back a nil member and the Go code panics calling
`.String()` on it. -/
theorem empty_ring_no_error_cex :
    emptyRouter.put (some objectA) = .panicked ∧
    (¬ ∃ e, emptyRouter.put (some objectA) = .err e) ∧
    emptyRouter.get "object-1" = .panicked ∧
    (¬ ∃ e, emptyRouter.get "object-1" = .err e) := by
  have h1 : emptyRouter.put (some objectA) = .panicked := by decide
  have h2 : emptyRouter.get "object-1" = .panicked := by decide
  refine ⟨h1, ?_, h2, ?_⟩
  · rintro ⟨e, he⟩
    rw [h1] at he
    cases he
  · rintro ⟨e, he⟩
    rw [h2] at he
    cases he

/-- C5 amended: for every key, calling the Router's Put or Get when the
hash ring has no members crashes (nil-member dereference panic) rather
than returning a NoMembers error result. -/
theorem empty_ring_panics (s : DistributedStorage) (o : Object) (id : String)
    (hring : s.circleMembers = some []) (hid : o.id ≠ "") :
    s.put (some o) = .panicked ∧ s.get id = .panicked := by
  constructor
  · simp [DistributedStorage.put, if_neg hid, hring, locateKey]
  · simp [DistributedStorage.get, hring, locateKey]

/-- C5 witness for the amended claim at concrete inputs. -/
theorem empty_ring_panics_witness :
    emptyRouter.put (some objectA) = .panicked ∧
    emptyRouter.get "object-2" = .panicked :=
  empty_ring_panics emptyRouter objectA "object-2" rfl (by decide)

/-! ## C6 — Put input validation -/

/-- C6 counterexample: the Minio adapter's `Put` does not fail with an
InvalidArgument error on a nil object — it performs no validation and the
field access `object.ID` is a nil-pointer dereference (Go panic). -/
theorem minio_put_no_validation_cex :
    minioPut ([] : Bucket) none = .panicked ∧
    ¬ ∃ e, minioPut ([] : Bucket) none = .err e := by
  refine ⟨rfl, ?_⟩
  rintro ⟨e, he⟩
  simp [minioPut] at he

/-- C6 amended: only the Router's `Put` validates its input — a nil
object or an empty id fails with the "object is empty" (InvalidArgument)
error and no write happens; the Minio adapter's `Put` performs no such
validation: a nil object crashes it with a nil-pointer dereference, and
any non-nil object is forwarded to the backend client unchecked. -/
theorem put_validation (s : DistributedStorage) (o : Object) (b : Bucket)
    (hid : o.id = "") :
    s.put none = .err "object is empty" ∧
    s.put (some o) = .err "object is empty" ∧
    minioPut b none = .panicked := by
  refine ⟨rfl, ?_, rfl⟩
  simp [DistributedStorage.put, hid]

/-- C6 witness for the amended claim at concrete inputs. -/
theorem put_validation_witness :
    routerA.put none = .err "object is empty" ∧
    routerA.put (some { id := "", contentType := "text/plain", content := [] }) =
      .err "object is empty" ∧
    minioPut ([] : Bucket) none = .panicked :=
  put_validation routerA
    { id := "", contentType := "text/plain", content := [] } ([] : Bucket) rfl

/-! ## C4 — Init failures and process startup -/

/-- C4 (the code evaluated at the failing input): when
`DistributedStorage.Init` fails, `main` discards the returned error
(cmd/main.go line 28) and still starts the gateway server; the router it
exposes has a nil hash ring, so every subsequent Put/Get panics. The
process therefore DOES proceed to serve traffic after a failed Init. -/
theorem init_error_gateway_still_starts :
    (runMain (.error "retrieve storage nodes: boom")).gatewayStarted = true ∧
    (runMain (.error "retrieve storage nodes: boom")).initError =
      some "retrieve storage nodes: boom" ∧
    DistributedStorage.get
      { circleMembers := none, availableStorages := [] } "object-1" = .panicked ∧
    DistributedStorage.put
      { circleMembers := none, availableStorages := [] } (some objectA) = .panicked :=
  ⟨rfl, rfl, rfl, by decide⟩

/-! ## C8 — node discovery filtering -/

/-- An inspect query that always succeeds with Minio credentials. -/
def inspectAllOk : String → Except String (List String) :=
  fun _ => .ok ["MINIO_ACCESS_KEY=ak", "MINIO_SECRET_KEY=sk"]

/-- An inspect query that always fails. -/
def inspectBoom : String → Except String (List String) :=
  fun _ => .error "boom"

/-- A matching storage-node container with no resolvable IP address. -/
def containerNoAddr : ContainerInfo :=
  { id := "c1", names := ["/amazin-object-storage-node-1"],
    networkSettings := some [""] }

/-- A matching storage-node container with a resolvable IP address. -/
def containerGood : ContainerInfo :=
  { id := "c2", names := ["/amazin-object-storage-node-2"],
    networkSettings := some ["10.0.0.2"] }

/-- A running container that is not a storage node. -/
def containerOther : ContainerInfo :=
  { id := "c3", names := ["/gateway-container"],
    networkSettings := some ["10.0.0.3"] }

/-- The discovery loop skips a non-relevant entry without any effect. -/
theorem processContainers_skip (inspect : String → Except String (List String))
    (c : ContainerInfo) (rest : List ContainerInfo)
    (h : relevantContainer c = false) :
    processContainers inspect (c :: rest) = processContainers inspect rest := by
  cases hns : c.networkSettings with
  | none => simp [processContainers, hns]
  | some nets =>
    by_cases hid : c.id = ""
    · simp [processContainers, hns, hid]
    · have hcont : stringContains (c.names.head?.getD "") ContainerNamePattern = false := by
        simpa [relevantContainer, hns, hid, List.headD_eq_head?] using h
      simp [processContainers, hns, hid, List.headD_eq_head?, hcont]

/-- The discovery loop's step on a relevant entry: fatal without an
address, error on a failed inspect, otherwise the recorded node. -/
theorem processContainers_relevant_step
    (inspect : String → Except String (List String))
    (c : ContainerInfo) (rest : List ContainerInfo)
    (h : relevantContainer c = true) :
    processContainers inspect (c :: rest) =
      (if addrOf c = "" then .fatal
       else
         match inspect c.id with
         | .error e => .err ("unable to inspect container " ++ c.id ++ ": " ++ e)
         | .ok envs =>
           match processContainers inspect rest with
           | .ok ns => .ok (nodeOfEnvs c envs :: ns)
           | other => other) := by
  obtain ⟨nets, hns⟩ : ∃ nets, c.networkSettings = some nets := by
    cases hns : c.networkSettings with
    | none => simp [relevantContainer, hns] at h
    | some nets => exact ⟨nets, rfl⟩
  have hid : ¬ c.id = "" := by
    intro hid
    simp [relevantContainer, hid] at h
  have hcont : stringContains (c.names.head?.getD "") ContainerNamePattern = true := by
    simpa [relevantContainer, hns, hid, List.headD_eq_head?] using h
  simp [processContainers, hns, hid, List.headD_eq_head?, hcont]

/-- When every relevant candidate has an address and inspects cleanly,
discovery returns exactly the relevant candidates' nodes, in order. -/
theorem processContainers_filter
    (inspect : String → Except String (List String))
    (cs : List ContainerInfo)
    (h : ∀ c ∈ cs, relevantContainer c = true →
      addrOf c ≠ "" ∧ ∃ es, inspect c.id = .ok es) :
    processContainers inspect cs =
      .ok ((cs.filter relevantContainer).map (mkNode inspect)) := by
  induction cs with
  | nil => rfl
  | cons c rest ih =>
    have hrest := fun x hx => h x (List.mem_cons_of_mem _ hx)
    cases hrel : relevantContainer c with
    | false =>
      rw [processContainers_skip inspect c rest hrel, ih hrest]
      simp [List.filter_cons, hrel]
    | true =>
      obtain ⟨haddr, es, hes⟩ := h c (List.mem_cons_self _ _) hrel
      rw [processContainers_relevant_step inspect c rest hrel, if_neg haddr]
      simp only [hes, ih hrest, List.filter_cons, hrel, if_pos, List.map_cons]
      simp [mkNode, hes]

/-- A relevant candidate without a resolvable address, after any run of
skipped entries, terminates the process. -/
theorem processContainers_fatal
    (inspect : String → Except String (List String))
    (pre : List ContainerInfo) (c : ContainerInfo) (rest : List ContainerInfo)
    (hpre : ∀ p ∈ pre, relevantContainer p = false)
    (hrel : relevantContainer c = true) (haddr : addrOf c = "") :
    processContainers inspect (pre ++ c :: rest) = .fatal := by
  induction pre with
  | nil =>
    rw [List.nil_append, processContainers_relevant_step inspect c rest hrel,
      if_pos haddr]
  | cons p pre' ih =>
    rw [List.cons_append,
      processContainers_skip inspect p _ (hpre p (List.mem_cons_self _ _))]
    exact ih fun q hq => hpre q (List.mem_cons_of_mem _ hq)

/-- A failed inspect of a relevant candidate, after any run of skipped
entries, makes discovery return an error naming the container. -/
theorem processContainers_inspect_err
    (inspect : String → Except String (List String))
    (pre : List ContainerInfo) (c : ContainerInfo) (rest : List ContainerInfo)
    (e : String)
    (hpre : ∀ p ∈ pre, relevantContainer p = false)
    (hrel : relevantContainer c = true) (haddr : addrOf c ≠ "")
    (hins : inspect c.id = .error e) :
    processContainers inspect (pre ++ c :: rest) =
      .err ("unable to inspect container " ++ c.id ++ ": " ++ e) := by
  induction pre with
  | nil =>
    rw [List.nil_append, processContainers_relevant_step inspect c rest hrel,
      if_neg haddr]
    simp only [hins]
  | cons p pre' ih =>
    rw [List.cons_append,
      processContainers_skip inspect p _ (hpre p (List.mem_cons_self _ _))]
    exact ih fun q hq => hpre q (List.mem_cons_of_mem _ hq)

/-- C8 counterexample: the claim fails on the code in two ways. A
candidate matching the naming convention but missing a resolvable network
address is NOT skipped — `getAvailableStorageNodes` hits `log.Fatalf` and
the process terminates (no node list is ever returned); and a failure of
the per-container inspect query — not of the listing query — also makes
the operation return an error. -/
theorem discovery_cex :
    getAvailableStorageNodes inspectAllOk (.ok [containerNoAddr]) = .fatal ∧
    (¬ ∃ ns, getAvailableStorageNodes inspectAllOk (.ok [containerNoAddr]) = .ok ns) ∧
    getAvailableStorageNodes inspectBoom (.ok [containerGood]) =
      .err "unable to inspect container c2: boom" := by
  have h1 : getAvailableStorageNodes inspectAllOk (.ok [containerNoAddr]) = .fatal := by
    decide
  refine ⟨h1, ?_, by decide⟩
  rintro ⟨ns, hns⟩
  rw [h1] at hns
  cases hns

/-- C8 amended: a failed listing query returns a wrapped error; when every
relevant candidate (recognized name, non-empty id, non-nil network
settings) has a resolvable address and a successful inspect, discovery
returns exactly the relevant candidates' nodes; but a relevant candidate
WITHOUT a resolvable address terminates the process via `log.Fatalf`
instead of being skipped, and a failed per-container inspect also makes
the operation return an error. -/
theorem discovery_behavior :
    (∀ (inspect : String → Except String (List String)) (e : String),
      getAvailableStorageNodes inspect (.error e) =
        .err ("unable to list containers: " ++ e)) ∧
    (∀ (inspect : String → Except String (List String))
        (cs : List ContainerInfo),
      (∀ c ∈ cs, relevantContainer c = true →
        addrOf c ≠ "" ∧ ∃ es, inspect c.id = .ok es) →
      getAvailableStorageNodes inspect (.ok cs) =
        .ok ((cs.filter relevantContainer).map (mkNode inspect))) ∧
    (∀ (inspect : String → Except String (List String))
        (pre : List ContainerInfo) (c : ContainerInfo) (rest : List ContainerInfo),
      (∀ p ∈ pre, relevantContainer p = false) →
      relevantContainer c = true → addrOf c = "" →
      getAvailableStorageNodes inspect (.ok (pre ++ c :: rest)) = .fatal) ∧
    (∀ (inspect : String → Except String (List String))
        (pre : List ContainerInfo) (c : ContainerInfo) (rest : List ContainerInfo)
        (e : String),
      (∀ p ∈ pre, relevantContainer p = false) →
      relevantContainer c = true → addrOf c ≠ "" → inspect c.id = .error e →
      getAvailableStorageNodes inspect (.ok (pre ++ c :: rest)) =
        .err ("unable to inspect container " ++ c.id ++ ": " ++ e)) := by
  refine ⟨fun inspect e => rfl, fun inspect cs h => ?_, ?_, ?_⟩
  · exact processContainers_filter inspect cs h
  · intro inspect pre c rest hpre hrel haddr
    exact processContainers_fatal inspect pre c rest hpre hrel haddr
  · intro inspect pre c rest e hpre hrel haddr hins
    exact processContainers_inspect_err inspect pre c rest e hpre hrel haddr hins

/-- C8 witness for the amended claim at concrete inputs. -/
theorem discovery_behavior_witness :
    getAvailableStorageNodes inspectAllOk (.error "docker down") =
      .err ("unable to list containers: " ++ "docker down") ∧
    getAvailableStorageNodes inspectAllOk (.ok [containerGood, containerOther]) =
      .ok (([containerGood, containerOther].filter relevantContainer).map
        (mkNode inspectAllOk)) ∧
    getAvailableStorageNodes inspectAllOk (.ok ([containerOther] ++ containerNoAddr :: [])) =
      .fatal :=
  ⟨discovery_behavior.1 inspectAllOk "docker down",
   discovery_behavior.2.1 inspectAllOk [containerGood, containerOther]
     (by
       intro c hc hrel
       rcases List.mem_cons.mp hc with rfl | hc
       · exact ⟨by decide, ⟨["MINIO_ACCESS_KEY=ak", "MINIO_SECRET_KEY=sk"], rfl⟩⟩
       · rcases List.mem_cons.mp hc with rfl | hc
         · exact absurd hrel (by decide)
         · cases hc),
   discovery_behavior.2.2.1 inspectAllOk [containerOther] containerNoAddr []
     (by
       intro p hp
       rcases List.mem_singleton.mp hp with rfl
       decide)
     (by decide) (by decide)⟩

end DistStorage
